import Mathlib

/-!
Shallow embedding of the `LED_Heart.ino` firmware core (file `src/LED_Heart.ino`),
covering the button input classifier (`determineButtonEvent` and its debounce
loop), the animation runner (`advanceAnimation`, `transitionToNextAnimation`),
the mode state machine's brightness handling (`loop`,
`showCurrentBrightnessAdjustmentValue`, `setup`, `leaveBrightnessAdjustment`),
and the animation step functions relevant to the verified properties
(`animationStepFunctionTheaterChaseRainbow`, `animationStepFunctionFire2012`).

Modelling conventions:
* `unsigned long` (32-bit on this AVR target) timestamps are modelled as `Nat`
  together with `usub`, the exact wrap-around subtraction the C code performs
  on unsigned 32-bit values.
* `byte`/`uint8_t` quantities are modelled as `Nat` reduced `% 256` where the
  C code performs an implicit conversion to an eight-bit value.
* The hardware random generator (`random8`) is an external collaborator: every
  draw is an explicit input to the model, quantified over all possible values.
* The LED strip itself is an external sink; where a claim is about which
  pixel indices are written (not the colors), the model computes the list of
  written indices.
-/

/-! ## Machine arithmetic -/

/-- The modulus `2^32` of `unsigned long` arithmetic on the target. -/
def UINT32_MOD : Nat := 4294967296

/-- Wrap-around subtraction `a - b` on `unsigned long` values, as performed by
expressions such as `now - sButtonReleasedTime` in the C source. -/
def usub (a b : Nat) : Nat :=
  (a % UINT32_MOD + (UINT32_MOD - b % UINT32_MOD)) % UINT32_MOD

/-! ## Firmware constants (from the `#define`s at the top of the source) -/

def LED_COUNT : Nat := 31
def BUTTON_LONG_PRESS_INTERVAL_MILLISECONDS : Nat := 2000
def BUTTON_DOUBLE_PRESS_INTERVAL_MILLISECONDS : Nat := 250
def BRIGHTNESS_MIN : Int := 10
def BRIGHTNESS_MAX : Int := 100
def BRIGHTNESS_DEFAULT : Int := 20
def BRIGHTNESS_INCREMENT : Int := 10
def EEPROM_UNDEFINED_VALUE : Nat := 255

/-! ## Input classifier: debounce loop

The body of the `while (matchingReadCount < 3)` loop in `determineButtonEvent`.
`cur` is the current candidate level (`sButtonIsPressed`), `count` is
`matchingReadCount`, and `samples` is the sequence of pin levels that the
successive `digitalRead` calls (one per 1 ms `delay`) would observe.  The
result is the final debounced level together with the number of `delay(1)`
calls made, i.e. the number of milliseconds the loop blocked; `none` means the
supplied sample sequence was exhausted before three consecutive samples agreed
(the loop would still be running). -/
def debounceLoop (cur : Bool) (count : Nat) : List Bool → Option (Bool × Nat)
  | [] => if 3 ≤ count then some (cur, 0) else none
  | v :: rest =>
    if 3 ≤ count then some (cur, 0)
    else if v = cur then (debounceLoop cur (count + 1) rest).map (fun p => (p.1, p.2 + 1))
    else (debounceLoop v 0 rest).map (fun p => (p.1, p.2 + 1))

/-- The whole debounce filter: `first` is the initial
`digitalRead(BUTTON_PIN) == LOW` sample taken before the loop, `rest` the
samples observed inside the loop. -/
def debounce (first : Bool) (rest : List Bool) : Option (Bool × Nat) :=
  debounceLoop first 0 rest

/-! ## Input classifier: event state machine -/

/-- The C `enum ButtonEventType` (constructors renamed from the
`ButtonEventType...` C names). -/
inductive ButtonEventType
  | noEvent
  | pressed
  | longPressed
  | released
deriving DecidableEq

/-- The C `struct ButtonEvent`. -/
structure ButtonEvent where
  type : ButtonEventType
  releaseCount : Nat
deriving DecidableEq

/-- The `static` variables of `determineButtonEvent`:
`sButtonIsPressed`, `sButtonPressedTime`, `sButtonReleasedTime`,
`sPendingReleaseCount`. -/
structure ClassifierState where
  buttonIsPressed : Bool
  buttonPressedTime : Nat
  buttonReleasedTime : Nat
  pendingReleaseCount : Nat
deriving DecidableEq

/-- All static variables start zero-initialized. -/
def initialClassifierState : ClassifierState :=
  { buttonIsPressed := false
    buttonPressedTime := 0
    buttonReleasedTime := 0
    pendingReleaseCount := 0 }

/-- The environment observed by one call to `determineButtonEvent`:
* `now` — the `millis()` value read at the top of the call;
* `buttonDidChange` — the `gButtonDidChange` flag set by the pin-change
  interrupt handler `signalButtonStateChange`;
* `buttonEventTime` — the `gButtonEventTime` timestamp latched by that handler;
* `debouncedLevel` — the value of `sButtonIsPressed` produced by the debounce
  polling loop (see `debounce`), i.e. the stable pin level. -/
structure PollInput where
  now : Nat
  buttonDidChange : Bool
  buttonEventTime : Nat
  debouncedLevel : Bool

/-- One call to `determineButtonEvent`, translated from the C source:
returns the updated static state and the `ButtonEvent` returned to `loop`. -/
def determineButtonEvent (s : ClassifierState) (inp : PollInput) :
    ClassifierState × ButtonEvent :=
  if inp.buttonDidChange then
    let oldButtonIsPressed := s.buttonIsPressed
    let buttonIsPressed := inp.debouncedLevel
    if oldButtonIsPressed && !buttonIsPressed then
      let intervalSinceLastButtonRelease := usub inp.now s.buttonReleasedTime
      let pendingReleaseCount :=
        if intervalSinceLastButtonRelease < BUTTON_DOUBLE_PRESS_INTERVAL_MILLISECONDS then
          s.pendingReleaseCount + 1
        else 1
      ({ buttonIsPressed := buttonIsPressed
         buttonPressedTime := 0
         buttonReleasedTime := inp.buttonEventTime
         pendingReleaseCount := pendingReleaseCount },
       { type := .noEvent, releaseCount := 0 })
    else if !oldButtonIsPressed && buttonIsPressed then
      ({ s with buttonIsPressed := buttonIsPressed
                buttonPressedTime := inp.buttonEventTime },
       { type := .pressed, releaseCount := 0 })
    else
      ({ s with buttonIsPressed := buttonIsPressed },
       { type := .noEvent, releaseCount := 0 })
  else if s.buttonPressedTime ≠ 0 then
    if usub inp.now s.buttonPressedTime > BUTTON_LONG_PRESS_INTERVAL_MILLISECONDS then
      ({ s with buttonPressedTime := 0 },
       { type := .longPressed, releaseCount := 0 })
    else (s, { type := .noEvent, releaseCount := 0 })
  else if s.pendingReleaseCount ≠ 0 then
    if usub inp.now s.buttonReleasedTime > BUTTON_DOUBLE_PRESS_INTERVAL_MILLISECONDS then
      ({ s with pendingReleaseCount := 0 },
       { type := .released, releaseCount := s.pendingReleaseCount })
    else (s, { type := .noEvent, releaseCount := 0 })
  else (s, { type := .noEvent, releaseCount := 0 })

/-- Run a sequence of polls; each output event is paired with the `millis()`
value of the poll that produced it. -/
def classifierRun (s : ClassifierState) :
    List PollInput → ClassifierState × List (Nat × ButtonEvent)
  | [] => (s, [])
  | p :: ps =>
    let step := determineButtonEvent s p
    let rest := classifierRun step.1 ps
    (rest.1, (p.now, step.2) :: rest.2)

/-- A poll in which the interrupt flag is clear (the pin did not change). -/
def quietPoll (now : Nat) : PollInput :=
  { now := now, buttonDidChange := false, buttonEventTime := 0, debouncedLevel := false }

/-- A poll processing a pin change whose debounced level is "pressed";
`eventTime` is the timestamp latched by the interrupt handler. -/
def pressPoll (now eventTime : Nat) : PollInput :=
  { now := now, buttonDidChange := true, buttonEventTime := eventTime, debouncedLevel := true }

/-- A poll processing a pin change whose debounced level is "not pressed". -/
def releasePoll (now eventTime : Nat) : PollInput :=
  { now := now, buttonDidChange := true, buttonEventTime := eventTime, debouncedLevel := false }

/-- The release counts of the `Released` events in a classifier output trace,
in order of emission. -/
def releasedCounts (l : List (Nat × ButtonEvent)) : List Nat :=
  (l.filter (fun te => te.2.type == ButtonEventType.released)).map (fun te => te.2.releaseCount)

/-- How many `LongPressed` events a classifier output trace contains. -/
def countLongPressed (l : List (Nat × ButtonEvent)) : Nat :=
  (l.filter (fun te => te.2.type == ButtonEventType.longPressed)).length

/-! ## Animation runner -/

/-- The C `enum AnimationState`. -/
inductive AnimationState
  | stateUndefined
  | stateInitialized
  | stateRunning
deriving DecidableEq

/-- The five animation step functions installed in
`kAllAnimationStepFunctions`, identified by name (the C code stores raw
function pointers). -/
inductive StepFunctionId
  | rainbow
  | rainbowCycle
  | insideOut
  | fire2012
  | theaterChaseRainbow
deriving DecidableEq

/-- The fields of `struct AnimationContext` that the verified operations read
or write (`ledCount` is the constant `LED_COUNT`; the pixel buffer and the
`stepFunctionPrivate` scratch area are external state not consulted by these
claims). -/
structure AnimationContext where
  state : AnimationState
  stepFunction : StepFunctionId
  frameDelay : Nat
deriving DecidableEq

/-- The table `kAllAnimationStepFunctions`: the fixed, `NULL`-terminated function-pointer
table (`none` models the terminating `NULL`). -/
def kAllAnimationStepFunctions : List (Option StepFunctionId) :=
  [some .rainbow, some .rainbowCycle, some .insideOut, some .fire2012,
   some .theaterChaseRainbow, none]

/-- The table `kAnimationStepFunctionFrameDelays`. -/
def kAnimationStepFunctionFrameDelays : List Nat := [25, 25, 30, 30, 60]

/-- The index scan in `transitionToNextAnimation`: the C code walks `i`
upwards comparing `animationContext->stepFunction` with
`kAllAnimationStepFunctions[i]`; `none` models a scan that runs past the table
(undefined behavior in C, unreachable because every `StepFunctionId` occurs in
the table). -/
def findStepFunctionIndex (f : StepFunctionId) :
    List (Option StepFunctionId) → Option Nat
  | [] => none
  | g :: rest =>
    if g = some f then some 0
    else (findStepFunctionIndex f rest).map (fun i => i + 1)

/-- Function `transitionToNextAnimation`, translated from the C source: find the
current step function in the table, step to the following entry (or back to
index 0 when the following entry is `NULL`), install that entry's frame delay,
and mark the context `Initialized`. -/
def transitionToNextAnimation (ctx : AnimationContext) : Option AnimationContext :=
  match findStepFunctionIndex ctx.stepFunction kAllAnimationStepFunctions with
  | none => none
  | some i =>
    let next := if (kAllAnimationStepFunctions.getD (i + 1) none).isSome then i + 1 else 0
    match kAllAnimationStepFunctions.getD next none with
    | none => none
    | some f =>
      some { ctx with
              stepFunction := f
              frameDelay := kAnimationStepFunctionFrameDelays.getD next 0
              state := .stateInitialized }

/-- The cyclic successor in the order of `kAllAnimationStepFunctions`,
written out from the spec's description of the fixed ordered list (used to
state, and compare against, what `transitionToNextAnimation` computes). -/
def nextStepFunctionInList : StepFunctionId → StepFunctionId
  | .rainbow => .rainbowCycle
  | .rainbowCycle => .insideOut
  | .insideOut => .fire2012
  | .fire2012 => .theaterChaseRainbow
  | .theaterChaseRainbow => .rainbow

/-- The frame delay listed at each step function's position in the tables. -/
def frameDelayOfStepFunction : StepFunctionId → Nat
  | .rainbow => 25
  | .rainbowCycle => 25
  | .insideOut => 30
  | .fire2012 => 30
  | .theaterChaseRainbow => 60

/-- The `static` variables of `advanceAnimation` (`frameIndex`,
`lastCallTime`) together with the context it operates on. -/
structure AnimationRunnerState where
  context : AnimationContext
  frameIndex : Nat
  lastCallTime : Nat
deriving DecidableEq

/-- One call to `advanceAnimation` at time `now` (the `millis()` value; the
two `millis()` reads inside one call are modelled as the same instant).
Returns the updated state and whether this call rendered a frame (invoked the
step function and flushed the pixel buffer). -/
def advanceAnimation (s : AnimationRunnerState) (now : Nat) :
    AnimationRunnerState × Bool :=
  let s1 :=
    if s.context.state ≠ AnimationState.stateRunning then
      { s with
          context := { s.context with state := .stateRunning }
          frameIndex := 0
          lastCallTime := now }
    else s
  let timeDiff := usub now s1.lastCallTime
  if timeDiff < s1.context.frameDelay then (s1, false)
  else
    ({ s1 with
        frameIndex := (s1.frameIndex + 1) % 256
        lastCallTime := now },
     true)

/-- The times of the calls that actually rendered a frame, over a sequence of
`advanceAnimation` calls at the given times. -/
def renderTimes (s : AnimationRunnerState) : List Nat → List Nat
  | [] => []
  | t :: ts =>
    let step := advanceAnimation s t
    if step.2 then t :: renderTimes step.1 ts else renderTimes step.1 ts

/-! ## Animation step functions -/

/-- The pixel indices written by one call of
`animationStepFunctionTheaterChaseRainbow`: the loop runs
`for (i = 0; i < ledCount; i = i + 3)` and each iteration assigns
`leds[i + offset]` with `offset = frameIndex % 3` (a color or black — a write
happens either way). `strideIndices ledCount i` lists the loop values of `i`
from start value `i`. -/
def strideIndices (ledCount : Nat) (i : Nat) : List Nat :=
  if i < ledCount then i :: strideIndices ledCount (i + 3) else []
termination_by ledCount - i

/-- The list of pixel indices the theater-chase-rainbow step writes, for a
given frame index. -/
def theaterChaseWrittenIndices (frameIndex : Nat) (ledCount : Nat) : List Nat :=
  (strideIndices ledCount 0).map (fun i => i + frameIndex % 3)

/-- FastLED `qsub8`: saturating subtraction on eight-bit values (for
arguments below 256, `Nat` subtraction is exactly that). -/
def qsub8 (a b : Nat) : Nat := a - b

/-- FastLED `qadd8`: saturating addition on eight-bit values. -/
def qadd8 (a b : Nat) : Nat := min (a + b) 255

/-- The random draws consumed by one call of
`animationStepFunctionFire2012`; each is an arbitrary eight-bit value (the
model reduces them `% 256`, resp. maps the spark cell draw into `random8(3)`'s
codomain `[0, 3)`), quantifying over every possible outcome of the FastLED
random generator:
* `cool i` — the draw of `random8(0, ((COOLING * 10) / heatCellCount) + 2)`
  for cell `i`;
* `sparkRoll` — the draw of `random8()` tested against `SPARKING`;
* `sparkCell` — the draw of `random8(3)`;
* `sparkHeat` — the draw of `random8(160, 255)`. -/
structure FireRand where
  cool : Fin 8 → Nat
  sparkRoll : Nat
  sparkCell : Nat
  sparkHeat : Nat

/-- Step 2 of `animationStepFunctionFire2012`: the downward loop
`for (k = heatCellCount - 1; k >= 2; k--)` setting
`heat[k] = (heat[k-1] + heat[k-2] + heat[k-2]) / 3` (eight-bit cells promoted
to `int`, so the sum does not wrap; the quotient is stored back to the byte
cell). -/
def fireDiffuse (h : Fin 8 → Nat) : Fin 8 → Nat :=
  ([7, 6, 5, 4, 3, 2] : List (Fin 8)).foldl
    (fun h k => Function.update h k ((h (k - 1) + h (k - 2) + h (k - 2)) / 3)) h

/-- One call of `animationStepFunctionFire2012` acting on the `static byte
heat[8]` array (step 4, which only reads `heat` to paint LED groups, does not
modify the array and is omitted). -/
def animationStepFunctionFire2012 (r : FireRand) (heat : Fin 8 → Nat) : Fin 8 → Nat :=
  let cooled : Fin 8 → Nat := fun i => qsub8 (heat i) (r.cool i % 256)
  let diffused := fireDiffuse cooled
  if r.sparkRoll % 256 < 50 then
    let y : Fin 8 := ⟨r.sparkCell % 3, by omega⟩
    Function.update diffused y (qadd8 (diffused y) (r.sparkHeat % 256))
  else diffused

/-- The `heat` array after any number of fire-simulation steps, starting from
the zero-initialized `static` array. -/
def fireHeatAfter (rs : List FireRand) : Fin 8 → Nat :=
  rs.foldl (fun h r => animationStepFunctionFire2012 r h) (fun _ => 0)

/-! ## Mode state machine: brightness handling -/

/-- The brightness update performed by `loop` in
`StateRunningBrightnessAdjustment` on a `Released` event (`gBrightness` is a
C `int`). -/
def adjustBrightness (gBrightness : Int) (releaseCount : Nat) : Int :=
  let delta : Int := if releaseCount = 1 then BRIGHTNESS_INCREMENT else -BRIGHTNESS_INCREMENT
  let b := gBrightness + delta
  if b > BRIGHTNESS_MAX then BRIGHTNESS_MIN
  else if b < BRIGHTNESS_MIN then BRIGHTNESS_MAX
  else b

/-- The marker index computed by `showCurrentBrightnessAdjustmentValue`:
`gBrightness * (BRIGHTNESS_MAX / BRIGHTNESS_INCREMENT) / BRIGHTNESS_MAX - 1`
(C `int` arithmetic; all quantities involved are nonnegative in the verified
range, where C truncating division agrees with this division). -/
def brightnessMarkerLevel (gBrightness : Int) : Int :=
  gBrightness * (BRIGHTNESS_MAX / BRIGHTNESS_INCREMENT) / BRIGHTNESS_MAX - 1

/-- The effective `gBrightness` after `setup`, as a function of the byte read
from `EEPROM` address 0: `gBrightness` is initialized to `BRIGHTNESS_DEFAULT`
and overwritten by the persisted value unless that value is the
`EEPROM_UNDEFINED_VALUE` sentinel. -/
def setupEffectiveBrightness (persistedByte : Nat) : Int :=
  if persistedByte ≠ EEPROM_UNDEFINED_VALUE then (persistedByte : Int)
  else BRIGHTNESS_DEFAULT

/-- The byte that `leaveBrightnessAdjustment` leaves in `EEPROM` address 0:
`EEPROM.update(BRIGHTNESS_EEPROM_ADDRESS, gBrightness)` converts the `int`
to the eight-bit storage cell. -/
def leaveBrightnessAdjustmentStoredByte (gBrightness : Int) : Nat :=
  (gBrightness % 256).toNat

/-- The poll sequence of a double-release scenario: a press processed at time
`n1` (latched at `tp1`), a release processed at `n2` (latched at `tr1`), some
flagless polls `mid1`, a second press processed at `n3` (latched at `tp2`),
flagless polls `mid2`, a second release processed at `n4` (latched at `tr2`),
and a flagless quiet period `quiet`. -/
def doubleReleaseTrace (n1 tp1 n2 tr1 : Nat) (mid1 : List Nat) (n3 tp2 : Nat)
    (mid2 : List Nat) (n4 tr2 : Nat) (quiet : List Nat) : List PollInput :=
  pressPoll n1 tp1 :: releasePoll n2 tr1 ::
    (mid1.map quietPoll ++
      pressPoll n3 tp2 ::
        (mid2.map quietPoll ++
          releasePoll n4 tr2 :: quiet.map quietPoll))

/-! ## Lemmas about the debounce loop -/

/-- Once three consecutive matching samples have been seen, the loop exits
without consuming further samples. -/
theorem debounceLoop_done (cur : Bool) (count : Nat) (samples : List Bool)
    (h : 3 ≤ count) : debounceLoop cur count samples = some (cur, 0) := by
  cases samples <;> simp [debounceLoop, h]

/-- The loop consumes at least `3 - count` further samples before exiting. -/
theorem debounceLoop_lower_bound :
    ∀ (samples : List Bool) (cur : Bool) (count : Nat) (l : Bool) (t : Nat),
      debounceLoop cur count samples = some (l, t) → 3 ≤ count + t := by
  intro samples
  induction samples with
  | nil =>
    intro cur count l t h
    unfold debounceLoop at h
    split at h
    · simp only [Option.some.injEq, Prod.mk.injEq] at h
      omega
    · exact absurd h (by simp)
  | cons v rest ih =>
    intro cur count l t h
    unfold debounceLoop at h
    split at h
    · simp only [Option.some.injEq, Prod.mk.injEq] at h
      omega
    · split at h
      · cases hd : debounceLoop cur (count + 1) rest with
        | none => rw [hd] at h; exact absurd h (by simp)
        | some p =>
          rw [hd] at h
          simp only [Option.map_some', Option.some.injEq, Prod.mk.injEq] at h
          have := ih cur (count + 1) p.1 p.2 (by simpa using hd)
          omega
      · cases hd : debounceLoop v 0 rest with
        | none => rw [hd] at h; exact absurd h (by simp)
        | some p =>
          rw [hd] at h
          simp only [Option.map_some', Option.some.injEq, Prod.mk.injEq] at h
          have := ih v 0 p.1 p.2 (by simpa using hd)
          omega

/-- A stable pin (the three samples after the initial read agree with it)
makes the debounce loop exit after exactly three 1 ms delays. -/
theorem debounce_stable_three (first : Bool) (rest : List Bool) :
    debounce first (first :: first :: first :: rest) = some (first, 3) := by
  simp [debounce, debounceLoop, debounceLoop_done]

/-- C1 (corrected): the claim that `determineButtonEvent`'s debounce sampling
loop blocks at most 3 ms for every sequence of pin levels is false (see
`debounce_budget_counterexample`); what holds is the amended statement: the
loop blocks at least 3 ms whenever it terminates, and exactly 3 ms when the
pin is stable, i.e. when the first three samples taken inside the loop agree
with the initial read. -/
theorem determineButtonEvent_debounce_budget :
    (∀ (first : Bool) (rest : List Bool) (level : Bool) (t : Nat),
        debounce first rest = some (level, t) → 3 ≤ t) ∧
    (∀ (first : Bool) (rest : List Bool),
        debounce first (first :: first :: first :: rest) = some (first, 3)) := by
  constructor
  · intro first rest level t h
    have := debounceLoop_lower_bound rest first 0 level t h
    omega
  · exact debounce_stable_three

/-- Witness for `determineButtonEvent_debounce_budget` at a concrete stable
sample sequence. -/
theorem determineButtonEvent_debounce_budget_witness :
    3 ≤ 3 ∧ debounce true [true, true, true] = some (true, 3) :=
  ⟨determineButtonEvent_debounce_budget.1 true [true, true, true] true 3 (by decide),
   determineButtonEvent_debounce_budget.2 true []⟩

/-- C1 counterexample: a bouncing pin (initial read low, then four high
samples) keeps the debounce loop busy for 4 ms, exceeding the claimed 3 ms
budget. -/
theorem debounce_budget_counterexample :
    debounce false [true, true, true, true] = some (true, 4) ∧ 3 < 4 :=
  ⟨by decide, by decide⟩

/-- C2 (code bug): on frame indices with `frameIndex % 3 = 2`, the
theater-chase-rainbow loop writes pixel index `32` (and with remainder 1,
index `31`), which is not below `LED_COUNT = 31` — the write goes past the end
of the 31-element `leds` buffer. -/
theorem theaterChaseRainbow_write_out_of_range :
    32 ∈ theaterChaseWrittenIndices 2 LED_COUNT ∧ ¬(32 < LED_COUNT) := by
  have h : theaterChaseWrittenIndices 2 LED_COUNT =
      [2, 5, 8, 11, 14, 17, 20, 23, 26, 29, 32] := by
    simp [theaterChaseWrittenIndices, strideIndices, LED_COUNT]
  rw [h]
  exact ⟨by decide, by decide⟩

/-- C3 (confirmed): in brightness-adjustment mode, a release with count 1
adds `BRIGHTNESS_INCREMENT`, a release with count above 1 subtracts it, a
result above `BRIGHTNESS_MAX` wraps to `BRIGHTNESS_MIN`, a result below
`BRIGHTNESS_MIN` wraps to `BRIGHTNESS_MAX`, and consequently the brightness
stays in `[10, 100]`. -/
theorem loop_brightnessAdjustment_step (b : Int) (rc : Nat)
    (hlo : BRIGHTNESS_MIN ≤ b) (hhi : b ≤ BRIGHTNESS_MAX) :
    (rc = 1 → adjustBrightness b rc = if b + 10 > 100 then 10 else b + 10) ∧
    (1 < rc → adjustBrightness b rc = if b - 10 < 10 then 100 else b - 10) ∧
    BRIGHTNESS_MIN ≤ adjustBrightness b rc ∧
    adjustBrightness b rc ≤ BRIGHTNESS_MAX := by
  unfold adjustBrightness BRIGHTNESS_MIN BRIGHTNESS_MAX BRIGHTNESS_INCREMENT at *
  by_cases h1 : rc = 1
  · refine ⟨fun _ => ?_, fun hrc => absurd h1 (by omega), ?_, ?_⟩ <;>
      simp only [h1, if_pos rfl] <;> split_ifs <;> omega
  · refine ⟨fun hrc => absurd hrc h1, fun _ => ?_, ?_, ?_⟩ <;>
      simp only [if_neg h1] <;> split_ifs <;> omega

/-- Witness for `loop_brightnessAdjustment_step`: a single release at
brightness 100 wraps to 10. -/
theorem loop_brightnessAdjustment_step_witness :
    (1 = 1 → adjustBrightness 100 1 = if (100 : Int) + 10 > 100 then 10 else 100 + 10) ∧
    (1 < 1 → adjustBrightness 100 1 = if (100 : Int) - 10 < 10 then 100 else 100 - 10) ∧
    BRIGHTNESS_MIN ≤ adjustBrightness 100 1 ∧
    adjustBrightness 100 1 ≤ BRIGHTNESS_MAX :=
  loop_brightnessAdjustment_step 100 1 (by decide) (by decide)

/-- C4 (confirmed): for brightness in `[10, 100]`, the marker index
`gBrightness * (BRIGHTNESS_MAX / BRIGHTNESS_INCREMENT) / BRIGHTNESS_MAX - 1`
lies in `[0, 9]`, hence within the 31-pixel buffer. -/
theorem showCurrentBrightnessAdjustmentValue_marker_in_range (b : Int)
    (hlo : BRIGHTNESS_MIN ≤ b) (hhi : b ≤ BRIGHTNESS_MAX) :
    0 ≤ brightnessMarkerLevel b ∧ brightnessMarkerLevel b ≤ 9 ∧
    brightnessMarkerLevel b < (LED_COUNT : Int) := by
  unfold brightnessMarkerLevel BRIGHTNESS_MIN BRIGHTNESS_MAX BRIGHTNESS_INCREMENT
    LED_COUNT at *
  norm_num
  omega

/-- Witness for `showCurrentBrightnessAdjustmentValue_marker_in_range` at
brightness 20. -/
theorem showCurrentBrightnessAdjustmentValue_marker_in_range_witness :
    0 ≤ brightnessMarkerLevel 20 ∧ brightnessMarkerLevel 20 ≤ 9 ∧
    brightnessMarkerLevel 20 < (LED_COUNT : Int) :=
  showCurrentBrightnessAdjustmentValue_marker_in_range 20 (by decide) (by decide)

/-- C8 (confirmed): `transitionToNextAnimation` replaces the step function by
the next entry of the fixed table (wrapping from the last to the first),
installs the frame delay at that position, and marks the context
`Initialized`; in particular the last animation cycles back to the first. -/
theorem transitionToNextAnimation_cycles (ctx : AnimationContext) :
    transitionToNextAnimation ctx =
      some { ctx with
              stepFunction := nextStepFunctionInList ctx.stepFunction
              frameDelay := frameDelayOfStepFunction (nextStepFunctionInList ctx.stepFunction)
              state := .stateInitialized } ∧
    nextStepFunctionInList .theaterChaseRainbow = .rainbow := by
  refine ⟨?_, rfl⟩
  obtain ⟨st, f, fd⟩ := ctx
  cases f <;> rfl

/-- C10 (confirmed): booting with the sentinel byte 255 leaves the default
brightness 20; and the byte written by `leaveBrightnessAdjustment` for any
in-range brightness reads back as exactly that brightness at the next boot. -/
theorem brightness_persistence_round_trip :
    setupEffectiveBrightness EEPROM_UNDEFINED_VALUE = BRIGHTNESS_DEFAULT ∧
    ∀ g : Int, BRIGHTNESS_MIN ≤ g → g ≤ BRIGHTNESS_MAX →
      setupEffectiveBrightness (leaveBrightnessAdjustmentStoredByte g) = g := by
  constructor
  · decide
  · intro g h1 h2
    unfold setupEffectiveBrightness leaveBrightnessAdjustmentStoredByte
      EEPROM_UNDEFINED_VALUE BRIGHTNESS_MIN BRIGHTNESS_MAX at *
    have h3 : g % 256 = g := by omega
    rw [h3]
    split_ifs with h4 <;> omega

/-- Witness for `brightness_persistence_round_trip`: brightness 50 survives
the EEPROM round trip. -/
theorem brightness_persistence_round_trip_witness :
    setupEffectiveBrightness (leaveBrightnessAdjustmentStoredByte 50) = 50 :=
  brightness_persistence_round_trip.2 50 (by decide) (by decide)

/-! ## Lemmas about classifier poll runs -/

/-- Unfolding one poll of `classifierRun`. -/
theorem classifierRun_cons (s : ClassifierState) (p : PollInput) (ps : List PollInput) :
    classifierRun s (p :: ps) =
      ((classifierRun (determineButtonEvent s p).1 ps).1,
        (p.now, (determineButtonEvent s p).2) ::
          (classifierRun (determineButtonEvent s p).1 ps).2) := rfl

/-- Running `classifierRun` distributes over list append. -/
theorem classifierRun_append (s : ClassifierState) (xs ys : List PollInput) :
    classifierRun s (xs ++ ys) =
      ((classifierRun (classifierRun s xs).1 ys).1,
        (classifierRun s xs).2 ++ (classifierRun (classifierRun s xs).1 ys).2) := by
  induction xs generalizing s with
  | nil => simp [classifierRun]
  | cons p ps ih => simp [classifierRun_cons, ih]

/-- A flagless poll with no active press and no pending release does
nothing. -/
theorem determineButtonEvent_quiet_idle (s : ClassifierState) (t : Nat)
    (hp : s.buttonPressedTime = 0) (hc : s.pendingReleaseCount = 0) :
    determineButtonEvent s (quietPoll t) = (s, { type := .noEvent, releaseCount := 0 }) := by
  simp [determineButtonEvent, quietPoll, hp, hc]

/-- A flagless poll inside a release-grouping window that has not yet
elapsed does nothing. -/
theorem determineButtonEvent_quiet_waiting (s : ClassifierState) (t : Nat)
    (hp : s.buttonPressedTime = 0)
    (hq : ¬ BUTTON_DOUBLE_PRESS_INTERVAL_MILLISECONDS < usub t s.buttonReleasedTime) :
    determineButtonEvent s (quietPoll t) = (s, { type := .noEvent, releaseCount := 0 }) := by
  by_cases hc : s.pendingReleaseCount = 0
  · exact determineButtonEvent_quiet_idle s t hp hc
  · simp [determineButtonEvent, quietPoll, hp, hc, hq]

/-- A flagless poll inside a release-grouping window that has elapsed emits
`Released` with the accumulated count and clears the counter. -/
theorem determineButtonEvent_quiet_release (s : ClassifierState) (t : Nat)
    (hp : s.buttonPressedTime = 0) (hc : s.pendingReleaseCount ≠ 0)
    (hq : BUTTON_DOUBLE_PRESS_INTERVAL_MILLISECONDS < usub t s.buttonReleasedTime) :
    determineButtonEvent s (quietPoll t) =
      ({ s with pendingReleaseCount := 0 },
        { type := .released, releaseCount := s.pendingReleaseCount }) := by
  simp [determineButtonEvent, quietPoll, hp, hc, hq]

/-- A flagless poll during a press whose long-press threshold has not been
crossed does nothing. -/
theorem determineButtonEvent_quiet_held (s : ClassifierState) (t : Nat)
    (hp : s.buttonPressedTime ≠ 0)
    (hq : ¬ BUTTON_LONG_PRESS_INTERVAL_MILLISECONDS < usub t s.buttonPressedTime) :
    determineButtonEvent s (quietPoll t) = (s, { type := .noEvent, releaseCount := 0 }) := by
  simp [determineButtonEvent, quietPoll, hp, hq]

/-- A flagless poll during a press past the long-press threshold emits
`LongPressed` and clears the press-start time. -/
theorem determineButtonEvent_quiet_longPress (s : ClassifierState) (t : Nat)
    (hp : s.buttonPressedTime ≠ 0)
    (hq : BUTTON_LONG_PRESS_INTERVAL_MILLISECONDS < usub t s.buttonPressedTime) :
    determineButtonEvent s (quietPoll t) =
      ({ s with buttonPressedTime := 0 },
        { type := .longPressed, releaseCount := 0 }) := by
  simp [determineButtonEvent, quietPoll, hp, hq]

/-- The `millis()` value carried by a flagless poll. -/
theorem quietPoll_now (t : Nat) : (quietPoll t).now = t := rfl

/-- A run of flagless polls before any grouping window elapses leaves the
classifier state unchanged and emits no event. -/
theorem classifierRun_quiet_calm (times : List Nat) :
    ∀ s : ClassifierState, s.buttonPressedTime = 0 →
      (∀ t ∈ times, ¬ BUTTON_DOUBLE_PRESS_INTERVAL_MILLISECONDS < usub t s.buttonReleasedTime) →
      classifierRun s (times.map quietPoll) =
        (s, times.map (fun t => (t, { type := .noEvent, releaseCount := 0 }))) := by
  induction times with
  | nil => intro s _ _; rfl
  | cons t ts ih =>
    intro s hp hq
    have hstep := determineButtonEvent_quiet_waiting s t hp (hq t (by simp))
    simp only [List.map_cons, classifierRun_cons, hstep]
    simp [quietPoll_now, ih s hp (fun u hu => hq u (by simp [hu]))]

/-- A run of flagless polls with no press active and no pending release
leaves the state unchanged and emits no event. -/
theorem classifierRun_quiet_idle (times : List Nat) :
    ∀ s : ClassifierState, s.buttonPressedTime = 0 → s.pendingReleaseCount = 0 →
      classifierRun s (times.map quietPoll) =
        (s, times.map (fun t => (t, { type := .noEvent, releaseCount := 0 }))) := by
  induction times with
  | nil => intro s _ _; rfl
  | cons t ts ih =>
    intro s hp hc
    have hstep := determineButtonEvent_quiet_idle s t hp hc
    simp only [List.map_cons, classifierRun_cons, hstep]
    simp [quietPoll_now, ih s hp hc]

/-- A run of flagless polls during a held press, all before the long-press
threshold, leaves the state unchanged and emits no event. -/
theorem classifierRun_quiet_still_held (times : List Nat) :
    ∀ s : ClassifierState, s.buttonPressedTime ≠ 0 →
      (∀ t ∈ times, ¬ BUTTON_LONG_PRESS_INTERVAL_MILLISECONDS < usub t s.buttonPressedTime) →
      classifierRun s (times.map quietPoll) =
        (s, times.map (fun t => (t, { type := .noEvent, releaseCount := 0 }))) := by
  induction times with
  | nil => intro s _ _; rfl
  | cons t ts ih =>
    intro s hp hq
    have hstep := determineButtonEvent_quiet_held s t hp (hq t (by simp))
    simp only [List.map_cons, classifierRun_cons, hstep]
    simp [quietPoll_now, ih s hp (fun u hu => hq u (by simp [hu]))]

/-- Counting `releasedCounts` distributes over append. -/
theorem releasedCounts_append (a b : List (Nat × ButtonEvent)) :
    releasedCounts (a ++ b) = releasedCounts a ++ releasedCounts b := by
  simp [releasedCounts]

/-- A trace of `None` events contains no release. -/
theorem releasedCounts_noEvents (times : List Nat) :
    releasedCounts (times.map (fun t => (t, { type := .noEvent, releaseCount := 0 }))) = [] := by
  induction times with
  | nil => rfl
  | cons t ts ih => simp [releasedCounts, ih]

/-- Counting `countLongPressed` distributes over append. -/
theorem countLongPressed_append (a b : List (Nat × ButtonEvent)) :
    countLongPressed (a ++ b) = countLongPressed a + countLongPressed b := by
  simp [countLongPressed]

/-- A trace of `None` events contains no long press. -/
theorem countLongPressed_noEvents (times : List Nat) :
    countLongPressed (times.map (fun t => (t, { type := .noEvent, releaseCount := 0 }))) = 0 := by
  induction times with
  | nil => rfl
  | cons t ts ih => simp [countLongPressed, ih]

/-- Over flagless polls with no press active, the pending release counter is
emitted as a single `Released` event exactly when some poll falls beyond the
grouping window, and every emitted `Released` event is emitted at such a poll
and carries the pending count. -/
theorem classifierRun_quiet_release_spec (times : List Nat) :
    ∀ s : ClassifierState, s.buttonPressedTime = 0 → s.pendingReleaseCount ≠ 0 →
      (releasedCounts (classifierRun s (times.map quietPoll)).2 =
        if times.any (fun t =>
            decide (BUTTON_DOUBLE_PRESS_INTERVAL_MILLISECONDS < usub t s.buttonReleasedTime)) then
          [s.pendingReleaseCount]
        else []) ∧
      (∀ te ∈ (classifierRun s (times.map quietPoll)).2,
        te.2.type = ButtonEventType.released →
          BUTTON_DOUBLE_PRESS_INTERVAL_MILLISECONDS < usub te.1 s.buttonReleasedTime ∧
          te.2.releaseCount = s.pendingReleaseCount) := by
  induction times with
  | nil => intro s _ _; exact ⟨rfl, by simp [classifierRun]⟩
  | cons t ts ih =>
    intro s hp hc
    by_cases hcross : BUTTON_DOUBLE_PRESS_INTERVAL_MILLISECONDS < usub t s.buttonReleasedTime
    · have hstep := determineButtonEvent_quiet_release s t hp hc hcross
      have hrest := classifierRun_quiet_idle ts { s with pendingReleaseCount := 0 } hp rfl
      constructor
      · simp only [List.map_cons, classifierRun_cons, hstep]
        simp [releasedCounts, hrest, releasedCounts_noEvents, hcross]
      · simp only [List.map_cons, classifierRun_cons, hstep]
        simp only [hrest, quietPoll_now]
        intro te hte hty
        rcases List.mem_cons.mp hte with h | h
        · subst h; exact ⟨hcross, rfl⟩
        · exfalso
          obtain ⟨u, _, rfl⟩ := List.mem_map.mp h
          exact absurd hty (by simp)
    · have hstep := determineButtonEvent_quiet_waiting s t hp hcross
      obtain ⟨ih1, ih2⟩ := ih s hp hc
      constructor
      · simp only [List.map_cons, classifierRun_cons, hstep]
        simp [releasedCounts, hcross] at ih1 ⊢
        exact ih1
      · simp only [List.map_cons, classifierRun_cons, hstep]
        intro te hte hty
        rcases List.mem_cons.mp hte with h | h
        · subst h; exact absurd hty (by simp)
        · exact ih2 te h hty

/-- Over flagless polls with no press active, no `LongPressed` is ever
emitted. -/
theorem classifierRun_quiet_no_longPress (times : List Nat) :
    ∀ s : ClassifierState, s.buttonPressedTime = 0 →
      countLongPressed (classifierRun s (times.map quietPoll)).2 = 0 := by
  induction times with
  | nil => intro s _; rfl
  | cons t ts ih =>
    intro s hp
    by_cases hc : s.pendingReleaseCount = 0
    · have hstep := determineButtonEvent_quiet_idle s t hp hc
      simp only [List.map_cons, classifierRun_cons, hstep]
      simp [countLongPressed] at ih ⊢
      exact ih s hp
    · by_cases hcross : BUTTON_DOUBLE_PRESS_INTERVAL_MILLISECONDS < usub t s.buttonReleasedTime
      · have hstep := determineButtonEvent_quiet_release s t hp hc hcross
        simp only [List.map_cons, classifierRun_cons, hstep]
        simp [countLongPressed] at ih ⊢
        exact ih _ hp
      · have hstep := determineButtonEvent_quiet_waiting s t hp hcross
        simp only [List.map_cons, classifierRun_cons, hstep]
        simp [countLongPressed] at ih ⊢
        exact ih s hp

/-- Flagless press/release step: a pin change whose debounced level is
"pressed" while the stored level is "not pressed" emits `Pressed` and records
the latched press time. -/
theorem determineButtonEvent_pressPoll (s : ClassifierState) (n et : Nat)
    (h : s.buttonIsPressed = false) :
    determineButtonEvent s (pressPoll n et) =
      ({ s with buttonIsPressed := true, buttonPressedTime := et },
        { type := .pressed, releaseCount := 0 }) := by
  simp [determineButtonEvent, pressPoll, h]

/-- A pin change whose debounced level is "not pressed" while the stored level
is "pressed" records the release (grouping with the previous one when the
poll arrives inside the grouping window) and emits nothing. -/
theorem determineButtonEvent_releasePoll (s : ClassifierState) (n et : Nat)
    (h : s.buttonIsPressed = true) :
    determineButtonEvent s (releasePoll n et) =
      ({ buttonIsPressed := false
         buttonPressedTime := 0
         buttonReleasedTime := et
         pendingReleaseCount :=
           if usub n s.buttonReleasedTime < BUTTON_DOUBLE_PRESS_INTERVAL_MILLISECONDS then
             s.pendingReleaseCount + 1
           else 1 },
        { type := .noEvent, releaseCount := 0 }) := by
  simp [determineButtonEvent, releasePoll, h]

/-- C6 (corrected): over any run of flagless polls during a press (nonzero
latched press time), the classifier emits `LongPressed` exactly once if some
poll arrives strictly more than `BUTTON_LONG_PRESS_INTERVAL_MILLISECONDS`
after the press time, and never otherwise — in particular never more than
once per press.  The original claim's "held at least 2000 ms" is corrected to
"more than 2000 ms elapsed at some poll during the hold": a press held
exactly 2000 ms emits nothing (see `longPress_exact_hold_counterexample`). -/
theorem determineButtonEvent_longPress_once (s : ClassifierState) (times : List Nat)
    (hp : s.buttonPressedTime ≠ 0) :
    countLongPressed (classifierRun s (times.map quietPoll)).2 =
      if times.any (fun t =>
          decide (BUTTON_LONG_PRESS_INTERVAL_MILLISECONDS < usub t s.buttonPressedTime)) then 1
      else 0 := by
  induction times generalizing s with
  | nil => simp [classifierRun, countLongPressed]
  | cons t ts ih =>
    by_cases hcross : BUTTON_LONG_PRESS_INTERVAL_MILLISECONDS < usub t s.buttonPressedTime
    · have hstep := determineButtonEvent_quiet_longPress s t hp hcross
      have hrest := classifierRun_quiet_no_longPress ts { s with buttonPressedTime := 0 } rfl
      simp only [List.map_cons, classifierRun_cons, hstep]
      simp [countLongPressed] at hrest
      simp [countLongPressed, hcross]
      exact hrest
    · have hstep := determineButtonEvent_quiet_held s t hp hcross
      simp only [List.map_cons, classifierRun_cons, hstep]
      have := ih s hp
      simp [countLongPressed, hcross] at this ⊢
      exact this

/-- Witness for `determineButtonEvent_longPress_once`: from a press latched
at time 5, polls at 1000 and 3000 ms produce exactly one `LongPressed`. -/
theorem determineButtonEvent_longPress_once_witness :
    countLongPressed (classifierRun
        { buttonIsPressed := true, buttonPressedTime := 5
          buttonReleasedTime := 0, pendingReleaseCount := 0 }
        ([1000, 3000].map quietPoll)).2 =
      if [1000, 3000].any (fun t =>
          decide (BUTTON_LONG_PRESS_INTERVAL_MILLISECONDS < usub t 5)) then 1
      else 0 :=
  determineButtonEvent_longPress_once
    { buttonIsPressed := true, buttonPressedTime := 5
      buttonReleasedTime := 0, pendingReleaseCount := 0 }
    [1000, 3000] (by decide)

set_option maxRecDepth 8000 in
/-- C6 counterexample: a press latched at time 1 and released at time 2001 is
held for exactly 2000 ms ("at least 2000 ms"), the loop polls every
millisecond of the hold, yet no `LongPressed` is ever emitted (the code
requires the elapsed time to strictly exceed the threshold at a poll during
the hold). -/
theorem longPress_exact_hold_counterexample :
    countLongPressed (classifierRun initialClassifierState
        (pressPoll 1 1 ::
          ((List.range 2000).map (fun k => quietPoll (k + 2)) ++
            [releasePoll 2001 2001]))).2 = 0 ∧
    2001 - 1 = 2000 :=
  ⟨by decide, rfl⟩

/-- A `Pressed` entry contributes no release count. -/
theorem releasedCounts_cons_pressed (t : Nat) (l : List (Nat × ButtonEvent)) :
    releasedCounts ((t, { type := .pressed, releaseCount := 0 }) :: l) = releasedCounts l := by
  simp [releasedCounts]

/-- A `None` entry contributes no release count. -/
theorem releasedCounts_cons_none (t rc : Nat) (l : List (Nat × ButtonEvent)) :
    releasedCounts ((t, { type := .noEvent, releaseCount := rc }) :: l) = releasedCounts l := by
  simp [releasedCounts]

/-- C5 counterexample: two debounced releases latched at times 100 and 290 —
only 190 ms apart, inside the 250 ms grouping window — are counted as two
separate single releases when the poll that debounces the second release runs
at time 360, because the code compares the poll time (360), not the release's
latched time (290), against the previous release time (100).  The quiet
period then yields a `Released` event with count 1 instead of the claimed
single event with count 2. -/
theorem double_release_poll_delay_counterexample :
    releasedCounts (classifierRun initialClassifierState
        [pressPoll 10 10, releasePoll 100 100, pressPoll 200 200,
         releasePoll 360 290, quietPoll 700]).2 = [1] ∧
    290 - 100 < 250 :=
  ⟨by decide, by decide⟩

/-- C5 (corrected): in the double-release scenario `doubleReleaseTrace`, the
classifier emits exactly one `Released` event, carrying release count 2, and
only at a poll more than `BUTTON_DOUBLE_PRESS_INTERVAL_MILLISECONDS` after
the second release's latched time — provided the poll that debounces the
second release arrives within the grouping window measured from the *first*
release's latched time (`hgroup`; the code compares the poll time, not the
release's latched time), the intermediate flagless polls stay inside the
grouping and long-press windows, and some quiet poll falls beyond the
grouping window. -/
theorem determineButtonEvent_double_release_grouped
    (n1 tp1 n2 tr1 n3 tp2 n4 tr2 : Nat) (mid1 mid2 quiet : List Nat)
    (hmid1 : ∀ t ∈ mid1, ¬ BUTTON_DOUBLE_PRESS_INTERVAL_MILLISECONDS < usub t tr1)
    (htp2 : tp2 ≠ 0)
    (hmid2 : ∀ t ∈ mid2, ¬ BUTTON_LONG_PRESS_INTERVAL_MILLISECONDS < usub t tp2)
    (hgroup : usub n4 tr1 < BUTTON_DOUBLE_PRESS_INTERVAL_MILLISECONDS)
    (hquiet : quiet.any (fun t =>
        decide (BUTTON_DOUBLE_PRESS_INTERVAL_MILLISECONDS < usub t tr2)) = true) :
    releasedCounts (classifierRun initialClassifierState
        (doubleReleaseTrace n1 tp1 n2 tr1 mid1 n3 tp2 mid2 n4 tr2 quiet)).2 = [2] ∧
    ∀ te ∈ (classifierRun initialClassifierState
        (doubleReleaseTrace n1 tp1 n2 tr1 mid1 n3 tp2 mid2 n4 tr2 quiet)).2,
      te.2.type = ButtonEventType.released →
        BUTTON_DOUBLE_PRESS_INTERVAL_MILLISECONDS < usub te.1 tr2 ∧
        te.2.releaseCount = 2 := by
  have e1 : determineButtonEvent initialClassifierState (pressPoll n1 tp1) =
      (⟨true, tp1, 0, 0⟩, { type := .pressed, releaseCount := 0 }) := by
    rw [determineButtonEvent_pressPoll initialClassifierState n1 tp1 rfl]
    rfl
  have e2 : determineButtonEvent ⟨true, tp1, 0, 0⟩ (releasePoll n2 tr1) =
      (⟨false, 0, tr1, 1⟩, { type := .noEvent, releaseCount := 0 }) := by
    rw [determineButtonEvent_releasePoll ⟨true, tp1, 0, 0⟩ n2 tr1 rfl]
    simp
  have e3 : classifierRun (⟨false, 0, tr1, 1⟩ : ClassifierState) (mid1.map quietPoll) =
      (⟨false, 0, tr1, 1⟩,
        mid1.map (fun t => (t, { type := .noEvent, releaseCount := 0 }))) :=
    classifierRun_quiet_calm mid1 ⟨false, 0, tr1, 1⟩ rfl hmid1
  have e4 : determineButtonEvent ⟨false, 0, tr1, 1⟩ (pressPoll n3 tp2) =
      (⟨true, tp2, tr1, 1⟩, { type := .pressed, releaseCount := 0 }) := by
    rw [determineButtonEvent_pressPoll ⟨false, 0, tr1, 1⟩ n3 tp2 rfl]
  have e5 : classifierRun (⟨true, tp2, tr1, 1⟩ : ClassifierState) (mid2.map quietPoll) =
      (⟨true, tp2, tr1, 1⟩,
        mid2.map (fun t => (t, { type := .noEvent, releaseCount := 0 }))) :=
    classifierRun_quiet_still_held mid2 ⟨true, tp2, tr1, 1⟩ htp2 hmid2
  have e6 : determineButtonEvent ⟨true, tp2, tr1, 1⟩ (releasePoll n4 tr2) =
      (⟨false, 0, tr2, 2⟩, { type := .noEvent, releaseCount := 0 }) := by
    rw [determineButtonEvent_releasePoll ⟨true, tp2, tr1, 1⟩ n4 tr2 rfl]
    simp [hgroup]
  have e7 := classifierRun_quiet_release_spec quiet ⟨false, 0, tr2, 2⟩ rfl
    (by exact (by decide : (2 : Nat) ≠ 0))
  simp only [doubleReleaseTrace, classifierRun_cons, classifierRun_append, e1, e2, e3, e4,
    e5, e6]
  constructor
  · simp only [releasedCounts_cons_pressed, releasedCounts_cons_none, releasedCounts_append,
      releasedCounts_noEvents, List.nil_append]
    have e7c := e7.1
    dsimp only at e7c
    rw [hquiet] at e7c
    simpa using e7c
  · intro te hte hty
    simp only [List.mem_cons, List.mem_append] at hte
    rcases hte with h | h | h | h | h | h
    · rw [h] at hty; exact absurd hty (by simp)
    · rw [h] at hty; exact absurd hty (by simp)
    · obtain ⟨u, _, rfl⟩ := List.mem_map.mp h
      exact absurd hty (by simp)
    · rw [h] at hty; exact absurd hty (by simp)
    · obtain ⟨u, _, rfl⟩ := List.mem_map.mp h
      exact absurd hty (by simp)
    · rcases h with h' | h'
      · rw [h'] at hty; exact absurd hty (by simp)
      · exact e7.2 te h' hty

/-- Witness for `determineButtonEvent_double_release_grouped`: presses latched
at 10 and 200, releases latched at 100 and 230 (inside the grouping window),
quiet polls at 300 and 500 — one `Released` event with count 2. -/
theorem determineButtonEvent_double_release_grouped_witness :
    releasedCounts (classifierRun initialClassifierState
        (doubleReleaseTrace 10 10 100 100 [150] 200 200 [210] 240 230 [300, 500])).2 = [2] :=
  (determineButtonEvent_double_release_grouped 10 10 100 100 200 200 240 230 [150] [210]
    [300, 500] (by decide) (by decide) (by decide) (by decide) (by decide)).1

/-! ## Lemmas about the animation runner -/

/-- Calling `advanceAnimation` never changes the configured frame delay. -/
theorem advanceAnimation_frameDelay (s : AnimationRunnerState) (now : Nat) :
    (advanceAnimation s now).1.context.frameDelay = s.context.frameDelay := by
  unfold advanceAnimation
  dsimp only
  split <;> split <;> rfl

/-- After any `advanceAnimation` call the context is `Running`. -/
theorem advanceAnimation_state (s : AnimationRunnerState) (now : Nat) :
    (advanceAnimation s now).1.context.state = AnimationState.stateRunning := by
  unfold advanceAnimation
  dsimp only
  split <;> split <;> simp_all

/-- A call that renders records its own time as the last render time. -/
theorem advanceAnimation_render_lastCallTime (s : AnimationRunnerState) (now : Nat)
    (h : (advanceAnimation s now).2 = true) :
    (advanceAnimation s now).1.lastCallTime = now := by
  by_cases hrun : s.context.state = AnimationState.stateRunning
  · by_cases hc : usub now s.lastCallTime < s.context.frameDelay
    · exfalso
      have hfalse : (advanceAnimation s now).2 = false := by
        unfold advanceAnimation
        simp [hrun, hc]
      rw [hfalse] at h
      exact absurd h (by simp)
    · unfold advanceAnimation
      simp [hrun, hc]
  · by_cases hc : usub now now < s.context.frameDelay
    · exfalso
      have hfalse : (advanceAnimation s now).2 = false := by
        unfold advanceAnimation
        simp [hrun, hc]
      rw [hfalse] at h
      exact absurd h (by simp)
    · unfold advanceAnimation
      simp [hrun, hc]

/-- In the `Running` state, a call renders only when the elapsed time since
the last render reaches the frame delay. -/
theorem advanceAnimation_render_interval (s : AnimationRunnerState) (now : Nat)
    (hs : s.context.state = AnimationState.stateRunning)
    (h : (advanceAnimation s now).2 = true) :
    s.context.frameDelay ≤ usub now s.lastCallTime := by
  by_cases hc : usub now s.lastCallTime < s.context.frameDelay
  · exfalso
    have hfalse : (advanceAnimation s now).2 = false := by
      unfold advanceAnimation
      simp [hs, hc]
    rw [hfalse] at h
    exact absurd h (by simp)
  · omega

/-- In the `Running` state, a call that does not render leaves the state
untouched. -/
theorem advanceAnimation_no_render (s : AnimationRunnerState) (now : Nat)
    (hs : s.context.state = AnimationState.stateRunning)
    (h : (advanceAnimation s now).2 = false) :
    (advanceAnimation s now).1 = s := by
  by_cases hc : usub now s.lastCallTime < s.context.frameDelay
  · unfold advanceAnimation
    simp [hs, hc]
  · exfalso
    have htrue : (advanceAnimation s now).2 = true := by
      unfold advanceAnimation
      simp [hs, hc]
    rw [htrue] at h
    exact absurd h (by simp)

/-- The chain invariant behind C7: the rendered-frame times are always
separated by at least the frame delay, and in the `Running` state the first
render comes at least a frame delay after the recorded last call time. -/
theorem renderTimes_chain (ts : List Nat) :
    ∀ s : AnimationRunnerState,
      List.Chain' (fun a b => s.context.frameDelay ≤ usub b a) (renderTimes s ts) ∧
      (s.context.state = AnimationState.stateRunning →
        ∀ hd, (renderTimes s ts).head? = some hd →
          s.context.frameDelay ≤ usub hd s.lastCallTime) := by
  induction ts with
  | nil => intro s; exact ⟨List.chain'_nil, fun _ hd h => by simp [renderTimes] at h⟩
  | cons t ts ih =>
    intro s
    by_cases hr : (advanceAnimation s t).2 = true
    · have hfd := advanceAnimation_frameDelay s t
      have hst := advanceAnimation_state s t
      have hlct := advanceAnimation_render_lastCallTime s t hr
      have hrt : renderTimes s (t :: ts) = t :: renderTimes (advanceAnimation s t).1 ts := by
        simp [renderTimes, hr]
      obtain ⟨ihc, ihh⟩ := ih (advanceAnimation s t).1
      rw [hfd] at ihc ihh
      constructor
      · rw [hrt, List.chain'_cons']
        refine ⟨fun y hy => ?_, ihc⟩
        have := ihh hst y (by simpa using hy)
        rwa [hlct] at this
      · intro hs hd hhd
        rw [hrt] at hhd
        simp at hhd
        subst hhd
        exact advanceAnimation_render_interval s t hs hr
    · have hr' : (advanceAnimation s t).2 = false := by simpa using hr
      have hfd := advanceAnimation_frameDelay s t
      have hrt : renderTimes s (t :: ts) = renderTimes (advanceAnimation s t).1 ts := by
        simp [renderTimes, hr']
      obtain ⟨ihc, ihh⟩ := ih (advanceAnimation s t).1
      rw [hfd] at ihc ihh
      constructor
      · rw [hrt]; exact ihc
      · intro hs hd hhd
        rw [hrt] at hhd
        have heq := advanceAnimation_no_render s t hs hr'
        rw [heq] at hhd ihh
        exact ihh hs hd hhd

/-- C7 (confirmed): over any sequence of `advanceAnimation` calls, two
rendered frames are never separated by less than the configured frame delay
(elapsed time in the code's wrap-around clock arithmetic), and a call
arriving in the `Running` state before the frame delay has elapsed returns
without rendering. -/
theorem advanceAnimation_rate_limited (s : AnimationRunnerState) (ts : List Nat) :
    List.Chain' (fun a b => s.context.frameDelay ≤ usub b a) (renderTimes s ts) ∧
    (∀ now, s.context.state = AnimationState.stateRunning →
      usub now s.lastCallTime < s.context.frameDelay →
      (advanceAnimation s now).2 = false) := by
  refine ⟨(renderTimes_chain ts s).1, fun now hs hlt => ?_⟩
  unfold advanceAnimation
  simp [hs, hlt]

/-- Witness for `advanceAnimation_rate_limited`: with a 25 ms frame delay,
calls at 10, 30, 40 and 60 ms render at 30 and 60 only, and a call at 5 ms
does not render. -/
theorem advanceAnimation_rate_limited_witness :
    List.Chain'
      (fun a b =>
        ({ context := { state := .stateRunning, stepFunction := .rainbow, frameDelay := 25 }
           frameIndex := 0, lastCallTime := 0 } : AnimationRunnerState).context.frameDelay ≤
          usub b a)
      (renderTimes
        { context := { state := .stateRunning, stepFunction := .rainbow, frameDelay := 25 }
          frameIndex := 0, lastCallTime := 0 } [10, 30, 40, 60]) ∧
    (advanceAnimation
      { context := { state := .stateRunning, stepFunction := .rainbow, frameDelay := 25 }
        frameIndex := 0, lastCallTime := 0 } 5).2 = false :=
  ⟨(advanceAnimation_rate_limited
      { context := { state := .stateRunning, stepFunction := .rainbow, frameDelay := 25 }
        frameIndex := 0, lastCallTime := 0 } [10, 30, 40, 60]).1,
   (advanceAnimation_rate_limited
      { context := { state := .stateRunning, stepFunction := .rainbow, frameDelay := 25 }
        frameIndex := 0, lastCallTime := 0 } [10, 30, 40, 60]).2 5 rfl (by decide)⟩

/-! ## Lemmas about the fire simulation -/

/-- Updating one cell with an in-range value keeps the array in range. -/
theorem update_heat_le (h : Fin 8 → Nat) (hb : ∀ i, h i ≤ 255) (k : Fin 8) (v : Nat)
    (hv : v ≤ 255) : ∀ i, Function.update h k v i ≤ 255 := by
  intro i
  by_cases hik : i = k
  · subst hik; simp [hv]
  · simp [Function.update, hik, hb i]

/-- The diffusion average of in-range cells is in range. -/
theorem heat_avg_le (h : Fin 8 → Nat) (hb : ∀ i, h i ≤ 255) (a b : Fin 8) :
    (h a + h b + h b) / 3 ≤ 255 := by
  have ha := hb a
  have hbb := hb b
  have hsum : h a + h b + h b ≤ 765 := by omega
  calc (h a + h b + h b) / 3 ≤ 765 / 3 := Nat.div_le_div_right hsum
    _ = 255 := by decide

/-- Any run of the diffusion loop keeps the heat cells in range. -/
theorem fireDiffuse_foldl_le (ks : List (Fin 8)) :
    ∀ h : Fin 8 → Nat, (∀ i, h i ≤ 255) →
      ∀ i, (ks.foldl
        (fun h k => Function.update h k ((h (k - 1) + h (k - 2) + h (k - 2)) / 3)) h) i ≤ 255 := by
  induction ks with
  | nil => intro h hb i; exact hb i
  | cons k ks ih =>
    intro h hb i
    exact ih _ (update_heat_le h hb k _ (heat_avg_le h hb _ _)) i

/-- The diffusion step of `animationStepFunctionFire2012` keeps the heat
cells in range. -/
theorem fireDiffuse_le (h : Fin 8 → Nat) (hb : ∀ i, h i ≤ 255) :
    ∀ i, fireDiffuse h i ≤ 255 :=
  fireDiffuse_foldl_le [7, 6, 5, 4, 3, 2] h hb

/-- One fire-simulation step keeps every heat cell in `[0, 255]`, for every
outcome of the random draws. -/
theorem animationStepFunctionFire2012_le (r : FireRand) (h : Fin 8 → Nat)
    (hb : ∀ i, h i ≤ 255) : ∀ i, animationStepFunctionFire2012 r h i ≤ 255 := by
  unfold animationStepFunctionFire2012
  have hcool : ∀ i, qsub8 (h i) (r.cool i % 256) ≤ 255 := fun i =>
    le_trans (Nat.sub_le _ _) (hb i)
  have hdiff := fireDiffuse_le _ hcool
  dsimp only
  split
  · exact update_heat_le _ hdiff _ _ (min_le_right _ _)
  · exact hdiff

/-- C9 (confirmed): starting from the zero-initialized `static byte heat[8]`
array, after any number of fire-simulation steps and for every sequence of
random draws, every heat cell stays within `[0, 255]` (the lower bound is
inherent to the `Nat` model of the unsigned byte cells): the cooling and
spark updates saturate and the diffusion average of three in-range cells
cannot exceed 255. -/
theorem fire2012_heat_in_range (rs : List FireRand) : ∀ i, fireHeatAfter rs i ≤ 255 := by
  have general : ∀ (rs : List FireRand) (h : Fin 8 → Nat), (∀ i, h i ≤ 255) →
      ∀ i, (rs.foldl (fun h r => animationStepFunctionFire2012 r h) h) i ≤ 255 := by
    intro rs
    induction rs with
    | nil => intro h hb i; exact hb i
    | cons r rs ih =>
      intro h hb i
      exact ih _ (animationStepFunctionFire2012_le r h hb) i
  exact general rs (fun _ => 0) (fun _ => Nat.zero_le 255)
